import Mathlib

set_option maxRecDepth 40000

/-!
Verification of the cold-email generator (src/cold_email.py).

Strings of the Python program are modelled as lists of characters
(`Str`), and the Python string operations used by the program
(`in`, `split`, `replace`, `strip`, `lower`, truthiness) are given
executable definitions that follow the semantics of CPython on the
inputs the program feeds them.  Library calls whose results the
program consumes (the HTTP fetch, the BeautifulSoup queries, the
model response) are modelled as explicit inputs: a fetched page is a
record of the query results the code reads from the soup, and the
two AI SDK calls are modelled up to the raw response text that the
code post-processes.  json.loads is modelled by an executable
recursive-descent reader of a JSON value (objects are kept as
key-value lists in parse order).
-/

abbrev Str := List Char

def chars (s : String) : Str := s.data

/-- Python `pat in s` for strings: pat occurs as a contiguous substring. -/
def containsSub (pat : Str) : Str → Bool
  | [] => pat.isEmpty
  | c :: rest => pat.isPrefixOf (c :: rest) || containsSub pat rest

/-- Python `s.split(sep)` for a non-empty separator, with fuel
(the fuel is always instantiated with the length of the input,
which is enough to drive the scan to the end). -/
def pySplitGo (sep : Str) : Nat → Str → List Str
  | 0, s => [s]
  | n + 1, s =>
    if sep.isPrefixOf s && !sep.isEmpty then
      [] :: pySplitGo sep n (s.drop sep.length)
    else
      match s with
      | [] => [[]]
      | c :: rest =>
        match pySplitGo sep n rest with
        | [] => [[c]]
        | p :: ps => (c :: p) :: ps

def pySplit (sep s : Str) : List Str := pySplitGo sep s.length s

/-- Python `s.replace(pat, rep)` for a non-empty pattern:
non-overlapping occurrences are replaced left to right. -/
def pyReplaceGo (pat rep : Str) : Nat → Str → Str
  | 0, s => s
  | n + 1, s =>
    if pat.isPrefixOf s && !pat.isEmpty then
      rep ++ pyReplaceGo pat rep n (s.drop pat.length)
    else
      match s with
      | [] => []
      | c :: rest => c :: pyReplaceGo pat rep n rest

def pyReplace (pat rep s : Str) : Str := pyReplaceGo pat rep s.length s

/-- Python str whitespace (the characters removed by `s.strip()`). -/
def isPyWs (c : Char) : Bool :=
  c = ' ' || c = '\t' || c = '\n' || c = '\r' || c = '\x0b' || c = '\x0c'

/-- Python `s.strip()`. -/
def pyStrip (s : Str) : Str :=
  ((s.dropWhile isPyWs).reverse.dropWhile isPyWs).reverse

/-- Python `s.lower()` (the program only lowercases ASCII names and URLs). -/
def lowerStr (s : Str) : Str := s.map Char.toLower

/-- Python `x or default` for an optional string x:
None and the empty string are falsy. -/
def pyOr (o : Option Str) (d : Str) : Str :=
  match o with
  | none => d
  | some s => if s = [] then d else s

/-- Python truthiness of an optional string. -/
def truthyOpt (o : Option Str) : Bool :=
  match o with
  | none => false
  | some s => !s.isEmpty

/-! ## JSON values and json.loads -/

inductive Json where
  | null
  | bool (b : Bool)
  | num (n : Int)
  | str (s : Str)
  | arr (elems : List Json)
  | obj (members : List (Str × Json))

/-- JSON inter-token whitespace. -/
def isJWs (c : Char) : Bool := c = ' ' || c = '\t' || c = '\n' || c = '\r'

def dropWs (s : Str) : Str := s.dropWhile isJWs

/-- JSON string escapes (unicode escapes are outside the modelled subset). -/
def escChar (c : Char) : Option Char :=
  if c = '"' then some '"' else if c = '\\' then some '\\'
  else if c = '/' then some '/' else if c = 'n' then some '\n'
  else if c = 't' then some '\t' else if c = 'r' then some '\r'
  else if c = 'b' then some '\x08' else if c = 'f' then some '\x0c' else none

/-- Body of a JSON string literal after the opening quote: returns the
decoded characters and the remainder after the closing quote. -/
def parseStrBody : Str → Option (Str × Str)
  | [] => none
  | '"' :: rest => some ([], rest)
  | '\\' :: c :: rest =>
    match escChar c with
    | some e =>
      match parseStrBody rest with
      | some (cs, r) => some (e :: cs, r)
      | none => none
    | none => none
  | c :: rest =>
    match parseStrBody rest with
    | some (cs, r) => some (c :: cs, r)
    | none => none

def natOfDigits (ds : Str) : Nat := ds.foldl (fun a c => a * 10 + (c.toNat - 48)) 0

/-- Fuel-indexed readers for a JSON value, the members of an object
(after the opening brace, first member onwards) and the elements of an
array (after the opening bracket, first element onwards). -/
def jsonReaders : Nat →
    ((Str → Option (Json × Str)) × (Str → Option (List (Str × Json) × Str)) ×
      (Str → Option (List Json × Str)))
  | 0 => (fun _ => none, fun _ => none, fun _ => none)
  | n + 1 =>
    let pv := (jsonReaders n).1
    let pm := (jsonReaders n).2.1
    let pe := (jsonReaders n).2.2
    ( fun s =>
        match dropWs s with
        | [] => none
        | c :: rest =>
          if c = '"' then
            match parseStrBody rest with
            | some (cs, r) => some (.str cs, r)
            | none => none
          else if c = '\x7b' then
            match dropWs rest with
            | '\x7d' :: r2 => some (.obj [], r2)
            | r2 =>
              match pm r2 with
              | some (kvs, r) => some (.obj kvs, r)
              | none => none
          else if c = '[' then
            match dropWs rest with
            | ']' :: r2 => some (.arr [], r2)
            | r2 =>
              match pe r2 with
              | some (es, r) => some (.arr es, r)
              | none => none
          else if (chars ("true")).isPrefixOf (c :: rest) then some (.bool true, rest.drop 3)
          else if (chars ("false")).isPrefixOf (c :: rest) then some (.bool false, rest.drop 4)
          else if (chars ("null")).isPrefixOf (c :: rest) then some (.null, rest.drop 3)
          else if c = '-' then
            let ds := rest.takeWhile Char.isDigit
            if ds.isEmpty then none
            else some (.num (-(natOfDigits ds : Int)), rest.drop ds.length)
          else if c.isDigit then
            let ds := (c :: rest).takeWhile Char.isDigit
            some (.num (natOfDigits ds), (c :: rest).drop ds.length)
          else none,
      fun s =>
        match dropWs s with
        | '"' :: rest =>
          match parseStrBody rest with
          | some (key, r1) =>
            (match dropWs r1 with
             | ':' :: r2 =>
               match pv r2 with
               | some (v, r3) =>
                 (match dropWs r3 with
                  | ',' :: r4 =>
                    match pm r4 with
                    | some (kvs, r) => some ((key, v) :: kvs, r)
                    | none => none
                  | '\x7d' :: r4 => some ([(key, v)], r4)
                  | _ => none)
               | none => none
             | _ => none)
          | none => none
        | _ => none,
      fun s =>
        match pv s with
        | some (v, r1) =>
          (match dropWs r1 with
           | ',' :: r2 =>
             match pe r2 with
             | some (es, r) => some (v :: es, r)
             | none => none
           | ']' :: r2 => some ([v], r2)
           | _ => none)
        | none => none )

/-- Python json.loads on the modelled JSON subset: one value with
nothing but whitespace around it. -/
def jsonLoads (s : Str) : Option Json :=
  match (jsonReaders (s.length + 1)).1 s with
  | some (j, r) => if dropWs r = [] then some j else none
  | none => none

/-! ## The Anthropic-path response post-processing (cold_email.py lines 211-214) -/

def tick : Char := '\x60'

def tick3 : Str := [tick, tick, tick]

def jsonPat : Str := chars ("json")

/-- Post-processing of the raw Anthropic response text:
    if three backticks occur, take split(fence)[1], delete every
    occurrence of the four characters of the json tag, strip
    whitespace; then json.loads. -/
def postprocessAnthropic (content : Str) : Option Json :=
  let c2 :=
    if containsSub tick3 content then
      pyStrip (pyReplace jsonPat [] ((pySplit tick3 content).getD 1 []))
    else content
  jsonLoads c2

/-! ## Provider selection (cold_email.py lines 167-172) -/

inductive Provider where
  | openai
  | anthropic
deriving DecidableEq

/-- ColdEmailGenerator._select_provider.  hasO/hasA model the module
flags HAS_OPENAI/HAS_ANTHROPIC (whether the SDK import succeeded);
envO/envA model os.getenv of the two key variables (None when unset);
the result is None when the RuntimeError is raised. -/
def selectProvider (hasO hasA : Bool) (envO envA : Option Str) (preferred : Str) :
    Option Provider :=
  if preferred = chars ("openai") ∨ (preferred = chars ("auto") ∧ hasO ∧ truthyOpt envO) then
    some .openai
  else if preferred = chars ("anthropic") ∨ (preferred = chars ("auto") ∧ hasA ∧ truthyOpt envA) then
    some .anthropic
  else none

/-! ## Prospect, config and the prompt template (cold_email.py lines 37-61, 130-188) -/

structure Prospect where
  name : Str
  company : Str
  role : Option Str := none
  email : Option Str := none
  linkedin : Option Str := none
  website : Option Str := none
  company_description : Option Str := none
  recent_news : Option Str := none
  tech_stack : Option Str := none
  pain_points : Option Str := none
deriving DecidableEq

structure EmailConfig where
  sender_name : Str
  sender_company : Str
  value_prop : Str
  cta : Str := chars ("quick call")
  tone : Str := chars ("professional-friendly")
  length : Str := chars ("short")
deriving DecidableEq

/-- TEMPLATE_PROMPT.format(...): the fixed template with the eleven
slots filled in (escaped double braces of the source render as literal
braces). -/
def templateFill (name company role company_description tech_stack sender_name
    sender_company value_prop cta tone length : Str) : Str :=
  chars ("Generate a cold email with these requirements:\n\nPROSPECT:\n- Name: ") ++ name ++
  chars ("\n- Company: ") ++ company ++
  chars ("\n- Role: ") ++ role ++
  chars ("\n- Company Description: ") ++ company_description ++
  chars ("\n- Tech Stack: ") ++ tech_stack ++
  chars ("\n\nSENDER:\n- Name: ") ++ sender_name ++
  chars ("\n- Company: ") ++ sender_company ++
  chars ("\n- Value Proposition: ") ++ value_prop ++
  chars ("\n- Desired CTA: ") ++ cta ++
  chars ("\n\nSTYLE:\n- Tone: ") ++ tone ++
  chars ("\n- Length: ") ++ length ++
  chars (" (short=3-4 sentences, medium=5-6 sentences)\n\nRULES:\n1. Personalize based on prospect\x27s company/role\n2. Lead with value, not features\n3. One clear call-to-action\n4. No generic flattery (\"I love your company!\")\n5. Sound human, not templated\n6. Subject line should create curiosity\n\nReturn JSON:\n\x7b\n    \"subject\": \"Email subject line\",\n    \"body\": \"Full email body\",\n    \"follow_up\": \"Follow-up email if no response (shorter)\"\n\x7d")

/-- The prompt built by ColdEmailGenerator.generate: the optional
prospect fields pass through Python `or` with the placeholder. -/
def generatePrompt (p : Prospect) (c : EmailConfig) : Str :=
  templateFill p.name p.company
    (pyOr p.role (chars ("Unknown")))
    (pyOr p.company_description (chars ("Unknown")))
    (pyOr p.tech_stack (chars ("Unknown")))
    c.sender_name c.sender_company c.value_prop c.cta c.tone c.length

/-- The prompt as claim C3 words it: the placeholder is substituted
exactly for fields that are missing (None). -/
def claimPromptC3 (p : Prospect) (c : EmailConfig) : Str :=
  templateFill p.name p.company
    (p.role.getD (chars ("Unknown")))
    (p.company_description.getD (chars ("Unknown")))
    (p.tech_stack.getD (chars ("Unknown")))
    c.sender_name c.sender_company c.value_prop c.cta c.tone c.length

/-- The prompt as amended: the placeholder is substituted for fields
that are missing (None) or empty, matching Python `or` truthiness. -/
def amendedPromptC3 (p : Prospect) (c : EmailConfig) : Str :=
  templateFill p.name p.company
    (match p.role with
     | none => chars ("Unknown")
     | some s => if s = [] then chars ("Unknown") else s)
    (match p.company_description with
     | none => chars ("Unknown")
     | some s => if s = [] then chars ("Unknown") else s)
    (match p.tech_stack with
     | none => chars ("Unknown")
     | some s => if s = [] then chars ("Unknown") else s)
    c.sender_name c.sender_company c.value_prop c.cta c.tone c.length

/-! ## Website research (cold_email.py lines 64-124) -/

/-- The HTTP request issued by the session: method, url, timeout in
seconds, and the User-Agent header set on the session in __init__. -/
structure Request where
  method : Str
  url : Str
  timeoutSeconds : Nat
  userAgent : Str
deriving DecidableEq

def mkRequest (url : Str) : Request :=
  { method := chars ("GET")
    url := url
    timeoutSeconds := 10
    userAgent := chars ("Mozilla/5.0 (compatible; EmailResearch/1.0)") }

/-- Exceptions that can surface inside the try block of
research_website: a failed fetch, or a KeyError from indexing a tag
attribute that is absent. -/
inductive PyErr where
  | keyError (key : Str)
  | requestError (msg : Str)
deriving DecidableEq

/-- The soup query results that research_website reads from a fetched
page: the meta description tag (outer Option: tag present; inner
Option: its content attribute), the title text, the results of
select_one for the four about-selectors in order (entry i is the
get_text of the element matched by the i-th selector, None when no
match), and the src attributes of the script tags that have one. -/
structure Page where
  metaDesc : Option (Option Str)
  title : Option Str
  aboutResults : List (Option Str)
  scripts : List Str

/-- The description extraction: the content attribute if the meta tag
is truthy, else None; indexing a tag that lacks the attribute raises
a KeyError carrying the attribute name. -/
def getDesc : Option (Option Str) → Except PyErr (Option Str)
  | none => .ok none
  | some (some c) => .ok (some c)
  | some none => .error (.keyError (chars ("content")))

/-- The about-selector loop: the first matched element whose text,
truncated to 500 characters, is longer than 100 characters.  A
matched element that fails the length test does not break the loop. -/
def aboutLoop : List (Option Str) → Option Str
  | [] => none
  | none :: rest => aboutLoop rest
  | some t :: rest =>
    let text := t.take 500
    if 100 < text.length then some text else aboutLoop rest

/-- The per-script technology checks: substring tests on the
lowercased src attribute, appending the vocabulary names in the fixed
order of the source. -/
def hintsOf (src : Str) : List Str :=
  let l := lowerStr src
  (if containsSub (chars ("react")) l then [chars ("React")] else []) ++
  (if containsSub (chars ("vue")) l then [chars ("Vue")] else []) ++
  (if containsSub (chars ("angular")) l then [chars ("Angular")] else []) ++
  (if containsSub (chars ("stripe")) l then [chars ("Stripe")] else []) ++
  (if containsSub (chars ("intercom")) l then [chars ("Intercom")] else []) ++
  (if containsSub (chars ("hubspot")) l then [chars ("HubSpot")] else [])

/-- The fixed technology vocabulary. -/
def techVocab : List Str :=
  [chars ("React"), chars ("Vue"), chars ("Angular"),
   chars ("Stripe"), chars ("Intercom"), chars ("HubSpot")]

/-- tech_hints: all per-script hits, deduplicated (list(set(...))
loses duplicates and yields an unspecified order; modelled as
List.dedup, whose order the claims do not depend on). -/
def techHints (scripts : List Str) : List Str :=
  ((scripts.map hintsOf).flatten).dedup

/-- The dict returned by research_website: the error dict of the
except branch, or the four-key result dict. -/
inductive RWResult where
  | error (e : PyErr)
  | ok (description : Option Str) (title : Option Str) (about : Option Str)
      (tech_hints : List Str)
deriving DecidableEq

/-- research_website: issues one GET request through the session and
processes the page; the fetch oracle f stands for the network.  The
first component is the list of requests issued. -/
def researchWebsite (f : Request → Except PyErr Page) (url : Str) :
    List Request × RWResult :=
  let req := mkRequest url
  match f req with
  | .error e => ([req], .error e)
  | .ok page =>
    match getDesc page.metaDesc with
    | .error e => ([req], .error e)
    | .ok description =>
      ([req],
        .ok description page.title (aboutLoop page.aboutResults) (techHints page.scripts))

/-- The description datum read from the result dict via dict.get:
None on the error dict and for an absent description. -/
def dataDesc : RWResult → Option Str
  | .ok d _ _ _ => d
  | .error _ => none

/-- The tech hints datum read from the result dict via dict.get, as
the list consumed by the truthiness test and join (None and the empty
list are both falsy). -/
def dataHints : RWResult → List Str
  | .ok _ _ _ h => h
  | .error _ => []

/-- The comma-space join applied to the tech hints. -/
def joinComma (l : List Str) : Str := List.intercalate (chars (", ")) l

/-- ProspectResearcher.research: enriches the prospect in place; the
website is fetched only when prospect.website is truthy, and the two
research fields are written only when the corresponding datum is
truthy. -/
def research (f : Request → Except PyErr Page) (p : Prospect) : Prospect :=
  match p.website with
  | none => p
  | some url =>
    if url = [] then p
    else
      let data := (researchWebsite f url).2
      let p1 :=
        match dataDesc data with
        | some d => if d = [] then p else { p with company_description := some d }
        | none => p
      if (dataHints data).isEmpty then p1
      else { p1 with tech_stack := some (joinComma (dataHints data)) }

/-! ## format_email (cold_email.py lines 217-232) -/

/-- The email dict as format_email reads it: the three keys it
accesses, each possibly absent. -/
structure EmailDict where
  subject : Option Str := none
  body : Option Str := none
  follow_up : Option Str := none
deriving DecidableEq

/-- '\n'.join of the output lines. -/
def joinNl : List Str → Str
  | [] => []
  | [l] => l
  | l :: rest => l ++ '\n' :: joinNl rest

def eq60 : Str := List.replicate 60 '='

def dash60 : Str := List.replicate 60 '-'

/-- format_email: the subject is read before the body, so a missing
subject raises first; follow_up falls back to N/A via dict.get and
the address falls back via Python `or`. -/
def formatEmail (email : EmailDict) (p : Prospect) : Except PyErr Str :=
  match email.subject with
  | none => .error (.keyError (chars ("subject")))
  | some subj =>
    match email.body with
    | none => .error (.keyError (chars ("body")))
    | some bdy =>
      .ok (joinNl
        [eq60,
         chars ("TO: ") ++ p.name ++ chars (" <") ++
           pyOr p.email (chars ("email@example.com")) ++ chars (">"),
         chars ("SUBJECT: ") ++ subj,
         eq60,
         [],
         bdy,
         [],
         dash60,
         chars ("FOLLOW-UP (if no response after 3-5 days):"),
         dash60,
         email.follow_up.getD (chars ("N/A")),
         []])

/-! ## Theorems for claims C2 and C3 -/

def prospectC3 : Prospect :=
  { name := chars ("Ada"), company := chars ("Acme"), role := some [] }

def configC3 : EmailConfig :=
  { sender_name := chars ("Sam"), sender_company := chars ("Sellco"),
    value_prop := chars ("ship faster") }

/-- C3 counterexample: a prospect whose role is the empty string (not
None) is rendered with the placeholder, so the prompt differs from the
template filled with the field values with only None replaced. -/
theorem c3_counterexample : generatePrompt prospectC3 configC3 ≠ claimPromptC3 prospectC3 configC3 := by
  decide

/-- C3 (amended): generate fills TEMPLATE_PROMPT with the prospect and
sender fields, substituting the placeholder Unknown for any optional
prospect field that is missing (None) or empty, per Python or-truthiness. -/
theorem c3_prompt_amended (p : Prospect) (c : EmailConfig) :
    generatePrompt p c = amendedPromptC3 p c := rfl

/-- C2 counterexample: with both SDKs importable, OPENAI_API_KEY set to
the empty string, and ANTHROPIC_API_KEY set to a non-empty value, auto
selects anthropic although OPENAI_API_KEY is set. -/
theorem c2_counterexample :
    selectProvider true true (some []) (some (chars ("k"))) (chars ("auto")) ≠
      some Provider.openai ∧
    selectProvider true true (some []) (some (chars ("k"))) (chars ("auto")) =
      some Provider.anthropic := by
  decide

/-- C2 (amended): explicit overrides win regardless of environment;
under auto, openai is selected exactly when the openai SDK imported
and OPENAI_API_KEY is set to a non-empty value, otherwise anthropic
exactly when the anthropic SDK imported and ANTHROPIC_API_KEY is set
to a non-empty value, otherwise the RuntimeError is raised. -/
theorem c2_select_provider_amended (hasO hasA : Bool) (envO envA : Option Str) :
    selectProvider hasO hasA envO envA (chars ("openai")) = some Provider.openai ∧
    selectProvider hasO hasA envO envA (chars ("anthropic")) = some Provider.anthropic ∧
    (selectProvider hasO hasA envO envA (chars ("auto")) = some Provider.openai ↔
      hasO = true ∧ truthyOpt envO = true) ∧
    (selectProvider hasO hasA envO envA (chars ("auto")) = some Provider.anthropic ↔
      ¬(hasO = true ∧ truthyOpt envO = true) ∧ (hasA = true ∧ truthyOpt envA = true)) ∧
    (selectProvider hasO hasA envO envA (chars ("auto")) = none ↔
      ¬(hasO = true ∧ truthyOpt envO = true) ∧ ¬(hasA = true ∧ truthyOpt envA = true)) := by
  have hoo : chars ("openai") = chars ("openai") := rfl
  have haa : (chars ("anthropic") = chars ("openai")) = False := by decide
  have hau : (chars ("anthropic") = chars ("auto")) = False := by decide
  have h1 : (chars ("auto") = chars ("openai")) = False := by decide
  have h2 : (chars ("auto") = chars ("anthropic")) = False := by decide
  have h3 : (chars ("anthropic") = chars ("anthropic")) = True := by decide
  have h4 : (chars ("auto") = chars ("auto")) = True := by decide
  refine ⟨?_, ?_, ?_, ?_, ?_⟩
  · simp [selectProvider]
  · simp [selectProvider, haa, hau, h3]
  · by_cases ho : hasO = true ∧ truthyOpt envO = true
    · simp [selectProvider, h1, h4, ho]
    · by_cases ha : hasA = true ∧ truthyOpt envA = true
      · simp [selectProvider, h1, h2, h4, ho, ha]
      · simp [selectProvider, h1, h2, h4, ho, ha]
  · by_cases ho : hasO = true ∧ truthyOpt envO = true
    · simp [selectProvider, h1, h4, ho]
    · by_cases ha : hasA = true ∧ truthyOpt envA = true
      · simp [selectProvider, h1, h2, h4, ho, ha]
      · simp [selectProvider, h1, h2, h4, ho, ha]
  · by_cases ho : hasO = true ∧ truthyOpt envO = true
    · simp [selectProvider, h1, h4, ho]
    · by_cases ha : hasA = true ∧ truthyOpt envA = true
      · simp [selectProvider, h1, h2, h4, ho, ha]
      · simp [selectProvider, h1, h2, h4, ho, ha]

/-- C2 witness: the amended theorem applied at a concrete environment. -/
theorem c2_witness :
    selectProvider true false (some (chars ("k"))) none (chars ("openai")) =
      some Provider.openai :=
  (c2_select_provider_amended true false (some (chars ("k"))) none).1

/-! ## Theorems for claim C4 -/

/-- Membership in the per-script hint list: a name is appended for a
script exactly when it is a vocabulary name whose lowercase form is a
substring of the lowercased src. -/
theorem mem_hintsOf (name src : Str) :
    name ∈ hintsOf src ↔
      name ∈ techVocab ∧ containsSub (lowerStr name) (lowerStr src) = true := by
  have hR : lowerStr (chars ("React")) = chars ("react") := by decide
  have hV : lowerStr (chars ("Vue")) = chars ("vue") := by decide
  have hA : lowerStr (chars ("Angular")) = chars ("angular") := by decide
  have hS : lowerStr (chars ("Stripe")) = chars ("stripe") := by decide
  have hI : lowerStr (chars ("Intercom")) = chars ("intercom") := by decide
  have hH : lowerStr (chars ("HubSpot")) = chars ("hubspot") := by decide
  constructor
  · intro h
    unfold hintsOf at h
    simp only [List.mem_append] at h
    rcases h with (((((h | h) | h) | h) | h) | h) <;>
      · split at h <;> simp only [List.mem_singleton, List.not_mem_nil] at h
        subst h
        refine ⟨by decide, ?_⟩
        first
          | (rw [hR]; assumption)
          | (rw [hV]; assumption)
          | (rw [hA]; assumption)
          | (rw [hS]; assumption)
          | (rw [hI]; assumption)
          | (rw [hH]; assumption)
  · rintro ⟨hv, hc⟩
    have hv' : name = chars ("React") ∨ name = chars ("Vue") ∨ name = chars ("Angular") ∨
        name = chars ("Stripe") ∨ name = chars ("Intercom") ∨ name = chars ("HubSpot") := by
      simpa [techVocab] using hv
    unfold hintsOf
    simp only [List.mem_append]
    rcases hv' with rfl | rfl | rfl | rfl | rfl | rfl
    · rw [hR] at hc; simp [hc]
    · rw [hV] at hc; simp [hc]
    · rw [hA] at hc; simp [hc]
    · rw [hS] at hc; simp [hc]
    · rw [hI] at hc; simp [hc]
    · rw [hH] at hc; simp [hc]

/-- C4: tech_hints contains a name iff it is a vocabulary name whose
lowercase form occurs as a substring of the lowercased src attribute
of some script tag, and the returned list has no duplicates. -/
theorem c4_tech_hints (scripts : List Str) (name : Str) :
    (name ∈ techHints scripts ↔
      name ∈ techVocab ∧ ∃ s, s ∈ scripts ∧ containsSub (lowerStr name) (lowerStr s) = true) ∧
    (techHints scripts).Nodup := by
  constructor
  · unfold techHints
    rw [List.mem_dedup, List.mem_flatten]
    constructor
    · rintro ⟨l, hl, hmem⟩
      rw [List.mem_map] at hl
      obtain ⟨s, hs, rfl⟩ := hl
      obtain ⟨hv, hc⟩ := (mem_hintsOf name s).1 hmem
      exact ⟨hv, s, hs, hc⟩
    · rintro ⟨hv, s, hs, hc⟩
      exact ⟨hintsOf s, List.mem_map_of_mem _ hs, (mem_hintsOf name s).2 ⟨hv, hc⟩⟩
  · exact List.nodup_dedup _

/-- C4 witness: the theorem evaluated at a concrete script list. -/
theorem c4_witness : (techHints [chars ("cdn/react.min.js")]).Nodup :=
  (c4_tech_hints [chars ("cdn/react.min.js")] []).2

/-! ## Theorems for claim C6 -/

/-- Acceptance test of one selector result: the element text truncated
to 500 characters, kept when longer than 100 characters. -/
def acceptAbout (r : Option Str) : Option Str :=
  r.bind (fun t => if 100 < (t.take 500).length then some (t.take 500) else none)

/-- The about value as claim C6 words it: the first element matched by
any selector, truncated, accepted only if longer than 100 characters
(later selectors are never consulted once one matches). -/
def claimAboutC6 (results : List (Option Str)) : Option Str :=
  ((results.filterMap id).head?).bind
    (fun t => if 100 < (t.take 500).length then some (t.take 500) else none)

def shortText : Str := List.replicate 50 'a'

def longText : Str := List.replicate 200 'b'

/-- C6 counterexample: when the first selector matches an element with
short text and a later selector matches one with long text, the loop
takes the later text, while the claim as stated yields None. -/
theorem c6_counterexample :
    aboutLoop [some shortText, some longText] ≠ claimAboutC6 [some shortText, some longText] ∧
    aboutLoop [some shortText, some longText] = some longText ∧
    claimAboutC6 [some shortText, some longText] = none := by
  refine ⟨?_, by decide, by decide⟩
  decide

/-- C6 (amended): the about field is the first selector result, in
order, whose truncated text passes the length test (a matched element
with short text does not stop the search); hence a non-None about has
length strictly greater than 100 and at most 500. -/
theorem c6_about_amended (results : List (Option Str)) :
    aboutLoop results = (results.filterMap acceptAbout).head? ∧
    (∀ t, aboutLoop results = some t → 100 < t.length ∧ t.length ≤ 500) := by
  induction results with
  | nil => exact ⟨rfl, fun t h => nomatch h⟩
  | cons r rest ih =>
    cases r with
    | none =>
      refine ⟨?_, ?_⟩
      · simpa [aboutLoop, acceptAbout] using ih.1
      · intro t h
        exact ih.2 t (by simpa [aboutLoop] using h)
    | some t0 =>
      by_cases hc : 100 < t0.length
      · refine ⟨?_, ?_⟩
        · simp [aboutLoop, acceptAbout, hc, List.filterMap_cons]
        · intro t h
          have ht : t = t0.take 500 := by
            simpa [aboutLoop, hc] using h.symm
          subst ht
          simp only [List.length_take]
          omega
      · refine ⟨?_, ?_⟩
        · simpa [aboutLoop, acceptAbout, hc, List.filterMap_cons] using ih.1
        · intro t h
          exact ih.2 t (by simpa [aboutLoop, hc] using h)

/-- C6 witness: the amended theorem evaluated at a concrete result
list whose accepted element is the second one. -/
theorem c6_witness : 100 < longText.length ∧ longText.length ≤ 500 :=
  (c6_about_amended [some shortText, some longText]).2 longText (by decide)

/-! ## Theorems for claims C5, C7, C8, C9 -/

/-- Whether a research_website result is the four-key success dict. -/
def isOkResult : RWResult → Bool
  | .ok _ _ _ _ => true
  | .error _ => false

def pageNoContent : Page :=
  { metaDesc := some none, title := some (chars ("T")),
    aboutResults := [], scripts := [] }

def fetchNoContent : Request → Except PyErr Page := fun _ => .ok pageNoContent

/-- C5 counterexample: a page whose meta description tag is present
but has no content attribute makes research_website take the error
branch (KeyError from indexing the attribute) instead of returning the
four-key dict. -/
theorem c5_counterexample :
    pageNoContent.metaDesc.isSome = true ∧
    isOkResult (researchWebsite fetchNoContent (chars ("u"))).2 = false ∧
    (researchWebsite fetchNoContent (chars ("u"))).2 =
      .error (.keyError (chars ("content"))) := by
  refine ⟨rfl, rfl, rfl⟩

/-- C5 (amended): on a fetched page, the description field is the
content attribute of the meta description tag when the tag is present
with that attribute, and None when the tag is absent; the title field
is the title text when present and None otherwise; but a meta
description tag without a content attribute raises KeyError and the
error dict is returned instead of the four-key dict. -/
theorem c5_description_title_amended (f : Request → Except PyErr Page) (url : Str)
    (page : Page) (hf : f (mkRequest url) = .ok page) :
    (page.metaDesc = none →
      (researchWebsite f url).2 =
        .ok none page.title (aboutLoop page.aboutResults) (techHints page.scripts)) ∧
    (∀ c, page.metaDesc = some (some c) →
      (researchWebsite f url).2 =
        .ok (some c) page.title (aboutLoop page.aboutResults) (techHints page.scripts)) ∧
    (page.metaDesc = some none →
      (researchWebsite f url).2 = .error (.keyError (chars ("content")))) := by
  refine ⟨?_, ?_, ?_⟩
  · intro hm
    simp [researchWebsite, hf, getDesc, hm]
  · intro c hm
    simp [researchWebsite, hf, getDesc, hm]
  · intro hm
    simp [researchWebsite, hf, getDesc, hm]

def pageFull : Page :=
  { metaDesc := some (some (chars ("Desc"))), title := some (chars ("T")),
    aboutResults := [], scripts := [] }

def fetchFull : Request → Except PyErr Page := fun _ => .ok pageFull

/-- C5 witness: the amended theorem applied to a concrete page whose
meta description tag carries a content attribute. -/
theorem c5_witness :
    (researchWebsite fetchFull (chars ("u"))).2 =
      .ok (some (chars ("Desc"))) pageFull.title (aboutLoop pageFull.aboutResults)
        (techHints pageFull.scripts) :=
  (c5_description_title_amended fetchFull (chars ("u")) pageFull rfl).2.1 (chars ("Desc")) rfl

/-- C7: research_website issues exactly one GET request, with a
timeout of 10 seconds and the fixed session User-Agent header. -/
theorem c7_single_get (f : Request → Except PyErr Page) (url : Str) :
    (researchWebsite f url).1 =
      [{ method := chars ("GET"), url := url, timeoutSeconds := 10,
         userAgent := chars ("Mozilla/5.0 (compatible; EmailResearch/1.0)") }] := by
  cases hf : f (mkRequest url) with
  | error e =>
    simp only [researchWebsite, hf]
    rfl
  | ok page =>
    cases hd : getDesc page.metaDesc with
    | error e =>
      simp only [researchWebsite, hf, hd]
      rfl
    | ok d =>
      simp only [researchWebsite, hf, hd]
      rfl

/-- C7 witness: the request trace at a concrete url and oracle. -/
theorem c7_witness :
    (researchWebsite fetchFull (chars ("https://x.io"))).1 =
      [{ method := chars ("GET"), url := chars ("https://x.io"), timeoutSeconds := 10,
         userAgent := chars ("Mozilla/5.0 (compatible; EmailResearch/1.0)") }] :=
  c7_single_get fetchFull (chars ("https://x.io"))

/-- C8: research_website always yields a dict value: either the error
dict or the four-key dict; a failed fetch yields the error dict with
that exception, a KeyError during extraction yields the error dict
with that exception, and otherwise the four keys are the extracted
description, title, about and tech_hints. -/
theorem c8_total_errors (f : Request → Except PyErr Page) (url : Str) :
    ((∃ e, (researchWebsite f url).2 = .error e) ∨
      (∃ d t a h, (researchWebsite f url).2 = .ok d t a h)) ∧
    (∀ e, f (mkRequest url) = .error e → (researchWebsite f url).2 = .error e) ∧
    (∀ page, f (mkRequest url) = .ok page →
      (∀ e, getDesc page.metaDesc = .error e → (researchWebsite f url).2 = .error e) ∧
      (∀ d, getDesc page.metaDesc = .ok d →
        (researchWebsite f url).2 =
          .ok d page.title (aboutLoop page.aboutResults) (techHints page.scripts))) := by
  refine ⟨?_, ?_, ?_⟩
  · cases hf : f (mkRequest url) with
    | error e => exact Or.inl ⟨e, by simp [researchWebsite, hf]⟩
    | ok page =>
      cases hd : getDesc page.metaDesc with
      | error e => exact Or.inl ⟨e, by simp [researchWebsite, hf, hd]⟩
      | ok d =>
        exact Or.inr ⟨d, page.title, aboutLoop page.aboutResults, techHints page.scripts,
          by simp [researchWebsite, hf, hd]⟩
  · intro e hf
    simp [researchWebsite, hf]
  · intro page hf
    refine ⟨?_, ?_⟩
    · intro e hd
      simp [researchWebsite, hf, hd]
    · intro d hd
      simp [researchWebsite, hf, hd]

def fetchDown : Request → Except PyErr Page :=
  fun _ => .error (.requestError (chars ("connection timed out")))

/-- C8 witness: a failed fetch surfaces as the error dict carrying the
exception. -/
theorem c8_witness :
    (researchWebsite fetchDown (chars ("u"))).2 =
      .error (.requestError (chars ("connection timed out"))) :=
  (c8_total_errors fetchDown (chars ("u"))).2.1 _ rfl

/-- C9: research writes only company_description and tech_stack; all
other prospect fields are unchanged; a prospect without a website is
returned unchanged; and each of the two fields changes only when the
website research yields a truthy datum for it (the tech hints joined
with a comma and space). -/
theorem c9_frame (f : Request → Except PyErr Page) (p : Prospect) :
    (research f p).name = p.name ∧
    (research f p).company = p.company ∧
    (research f p).role = p.role ∧
    (research f p).email = p.email ∧
    (research f p).linkedin = p.linkedin ∧
    (research f p).website = p.website ∧
    (research f p).recent_news = p.recent_news ∧
    (research f p).pain_points = p.pain_points ∧
    (p.website = none → research f p = p) ∧
    ((research f p).company_description ≠ p.company_description →
      ∃ url d, p.website = some url ∧ dataDesc (researchWebsite f url).2 = some d ∧
        d ≠ [] ∧ (research f p).company_description = some d) ∧
    ((research f p).tech_stack ≠ p.tech_stack →
      ∃ url, p.website = some url ∧ dataHints (researchWebsite f url).2 ≠ [] ∧
        (research f p).tech_stack = some (joinComma (dataHints (researchWebsite f url).2))) := by
  cases hw : p.website with
  | none => simp [research, hw]
  | some url =>
    by_cases hu : url = []
    · have hre : research f p = p := by simp [research, hw, hu]
      refine ⟨?_, ?_, ?_, ?_, ?_, ?_, ?_, ?_, ?_, ?_, ?_⟩ <;> rw [hre] <;>
        first
          | rfl
          | exact hw
          | (intro h; rfl)
          | (intro h; exact Option.noConfusion h)
          | (intro h; exact absurd rfl h)
    · cases hd : dataDesc (researchWebsite f url).2 with
      | none =>
        by_cases hh : (dataHints (researchWebsite f url).2).isEmpty
        · have hre : research f p = p := by simp [research, hw, hu, hd, hh]
          refine ⟨?_, ?_, ?_, ?_, ?_, ?_, ?_, ?_, ?_, ?_, ?_⟩ <;> rw [hre] <;>
            first
              | rfl
              | exact hw
              | (intro h; rfl)
              | (intro h; exact Option.noConfusion h)
              | (intro h; exact absurd rfl h)
        · have hne : dataHints (researchWebsite f url).2 ≠ [] := by
            simpa [List.isEmpty_iff] using hh
          have hre : research f p =
              { p with tech_stack := some (joinComma (dataHints (researchWebsite f url).2)) } := by
            simp [research, hw, hu, hd, hh]
          refine ⟨?_, ?_, ?_, ?_, ?_, ?_, ?_, ?_, ?_, ?_, ?_⟩ <;> rw [hre] <;>
            first
              | rfl
              | exact hw
              | (intro h; exact Option.noConfusion h)
              | (intro h; exact absurd rfl h)
              | (intro h; exact ⟨url, rfl, hne, rfl⟩)
      | some d =>
        by_cases hde : d = []
        · by_cases hh : (dataHints (researchWebsite f url).2).isEmpty
          · have hre : research f p = p := by simp [research, hw, hu, hd, hde, hh]
            refine ⟨?_, ?_, ?_, ?_, ?_, ?_, ?_, ?_, ?_, ?_, ?_⟩ <;> rw [hre] <;>
              first
                | rfl
                | exact hw
                | (intro h; rfl)
                | (intro h; exact Option.noConfusion h)
                | (intro h; exact absurd rfl h)
          · have hne : dataHints (researchWebsite f url).2 ≠ [] := by
              simpa [List.isEmpty_iff] using hh
            have hre : research f p =
                { p with tech_stack := some (joinComma (dataHints (researchWebsite f url).2)) } := by
              simp [research, hw, hu, hd, hde, hh]
            refine ⟨?_, ?_, ?_, ?_, ?_, ?_, ?_, ?_, ?_, ?_, ?_⟩ <;> rw [hre] <;>
              first
                | rfl
                | exact hw
                | (intro h; exact Option.noConfusion h)
                | (intro h; exact absurd rfl h)
                | (intro h; exact ⟨url, rfl, hne, rfl⟩)
        · by_cases hh : (dataHints (researchWebsite f url).2).isEmpty
          · have hre : research f p = { p with company_description := some d } := by
              simp [research, hw, hu, hd, hde, hh]
            refine ⟨?_, ?_, ?_, ?_, ?_, ?_, ?_, ?_, ?_, ?_, ?_⟩ <;> rw [hre] <;>
              first
                | rfl
                | exact hw
                | (intro h; exact Option.noConfusion h)
                | (intro h; exact absurd rfl h)
                | (intro h; exact ⟨url, d, rfl, hd, hde, rfl⟩)
          · have hne : dataHints (researchWebsite f url).2 ≠ [] := by
              simpa [List.isEmpty_iff] using hh
            have hre : research f p =
                { p with company_description := some d,
                         tech_stack := some (joinComma (dataHints (researchWebsite f url).2)) } := by
              simp [research, hw, hu, hd, hde, hh]
            refine ⟨?_, ?_, ?_, ?_, ?_, ?_, ?_, ?_, ?_, ?_, ?_⟩ <;> rw [hre] <;>
              first
                | rfl
                | exact hw
                | (intro h; exact Option.noConfusion h)
                | (intro h; exact absurd rfl h)
                | (intro h; exact ⟨url, d, rfl, hd, hde, rfl⟩)
                | (intro h; exact ⟨url, rfl, hne, rfl⟩)

def prospectPlain : Prospect := { name := chars ("N"), company := chars ("C") }

/-- C9 witness: a prospect without a website is returned unchanged. -/
theorem c9_witness : research fetchDown prospectPlain = prospectPlain := by
  obtain ⟨-, -, -, -, -, -, -, -, h9, -, -⟩ := c9_frame fetchDown prospectPlain
  exact h9 rfl

/-! ## Theorems for claim C10 -/

theorem isPrefixOf_self_append (l t : Str) : l.isPrefixOf (l ++ t) = true := by
  induction l with
  | nil => cases t <;> rfl
  | cons c l ih => simpa [List.isPrefixOf] using ih

theorem containsSub_of_isPrefixOf {p s : Str} (h : p.isPrefixOf s = true) :
    containsSub p s = true := by
  cases s with
  | nil =>
    cases p with
    | nil => rfl
    | cons c cs => simp [List.isPrefixOf] at h
  | cons c rest => simp [containsSub, h]

theorem containsSub_self_append (p t : Str) : containsSub p (p ++ t) = true :=
  containsSub_of_isPrefixOf (isPrefixOf_self_append p t)

theorem containsSub_cons (c : Char) {p t : Str} (h : containsSub p t = true) :
    containsSub p (c :: t) = true := by
  simp [containsSub, h]

theorem containsSub_append_left (a : Str) {p t : Str} (h : containsSub p t = true) :
    containsSub p (a ++ t) = true := by
  induction a with
  | nil => simpa
  | cons c a ih => exact containsSub_cons c ih

theorem isPrefixOf_append_of_isPrefixOf {p l : Str} (r : Str) (h : p.isPrefixOf l = true) :
    p.isPrefixOf (l ++ r) = true := by
  induction p generalizing l with
  | nil => cases l <;> cases r <;> rfl
  | cons a as ih =>
    cases l with
    | nil => simp [List.isPrefixOf] at h
    | cons b bs =>
      simp only [List.isPrefixOf, Bool.and_eq_true, beq_iff_eq] at h
      simp only [List.cons_append, List.isPrefixOf, Bool.and_eq_true, beq_iff_eq]
      exact ⟨h.1, ih h.2⟩

theorem containsSub_append_right {p t : Str} (r : Str) (h : containsSub p t = true) :
    containsSub p (t ++ r) = true := by
  induction t with
  | nil =>
    have hp : p = [] := by simpa [containsSub, List.isEmpty_iff] using h
    subst hp
    cases r with
    | nil => rfl
    | cons c cs => simp [containsSub, List.isPrefixOf]
  | cons c t ih =>
    rw [containsSub, Bool.or_eq_true] at h
    rcases h with h1 | h2
    · exact containsSub_of_isPrefixOf (isPrefixOf_append_of_isPrefixOf r h1)
    · exact containsSub_cons c (ih h2)

/-- C10: format_email needs only the subject and body keys: with both
present it returns the rendered string, which contains the subject
line, the body, and the follow-up section, with N/A substituted when
follow_up is absent and the placeholder address when the prospect has
no email; a missing subject or body raises the matching KeyError. -/
theorem c10_format_email (email : EmailDict) (p : Prospect) :
    (∀ s b, email.subject = some s → email.body = some b →
      ∃ out, formatEmail email p = .ok out ∧
        containsSub (chars ("SUBJECT: ") ++ s) out = true ∧
        containsSub b out = true ∧
        containsSub (chars ("FOLLOW-UP (if no response after 3-5 days):")) out = true ∧
        (email.follow_up = none → containsSub (chars ("N/A")) out = true) ∧
        (p.email = none → containsSub (chars ("email@example.com")) out = true)) ∧
    (email.subject = none → formatEmail email p = .error (.keyError (chars ("subject")))) ∧
    (∀ s, email.subject = some s → email.body = none →
      formatEmail email p = .error (.keyError (chars ("body")))) := by
  refine ⟨?_, ?_, ?_⟩
  · intro s b hs hb
    refine ⟨joinNl [eq60,
        chars ("TO: ") ++ p.name ++ chars (" <") ++
          pyOr p.email (chars ("email@example.com")) ++ chars (">"),
        chars ("SUBJECT: ") ++ s, eq60, [], b, [], dash60,
        chars ("FOLLOW-UP (if no response after 3-5 days):"), dash60,
        email.follow_up.getD (chars ("N/A")), []], ?_, ?_, ?_, ?_, ?_, ?_⟩
    · simp [formatEmail, hs, hb]
    · exact containsSub_append_left _ (containsSub_cons '\n'
        (containsSub_append_left _ (containsSub_cons '\n'
          (containsSub_self_append _ _))))
    · exact containsSub_append_left _ (containsSub_cons '\n'
        (containsSub_append_left _ (containsSub_cons '\n'
          (containsSub_append_left _ (containsSub_cons '\n'
            (containsSub_append_left _ (containsSub_cons '\n'
              (containsSub_append_left _ (containsSub_cons '\n'
                (containsSub_self_append _ _))))))))))
    · exact containsSub_append_left _ (containsSub_cons '\n'
        (containsSub_append_left _ (containsSub_cons '\n'
          (containsSub_append_left _ (containsSub_cons '\n'
            (containsSub_append_left _ (containsSub_cons '\n'
              (containsSub_append_left _ (containsSub_cons '\n'
                (containsSub_append_left _ (containsSub_cons '\n'
                  (containsSub_append_left _ (containsSub_cons '\n'
                    (containsSub_append_left _ (containsSub_cons '\n'
                      (containsSub_self_append _ _))))))))))))))))
    · intro hfu
      rw [hfu]
      exact containsSub_append_left _ (containsSub_cons '\n'
        (containsSub_append_left _ (containsSub_cons '\n'
          (containsSub_append_left _ (containsSub_cons '\n'
            (containsSub_append_left _ (containsSub_cons '\n'
              (containsSub_append_left _ (containsSub_cons '\n'
                (containsSub_append_left _ (containsSub_cons '\n'
                  (containsSub_append_left _ (containsSub_cons '\n'
                    (containsSub_append_left _ (containsSub_cons '\n'
                      (containsSub_append_left _ (containsSub_cons '\n'
                        (containsSub_append_left _ (containsSub_cons '\n'
                          (containsSub_self_append _ _))))))))))))))))))))
    · intro hpe
      rw [hpe]
      have hto : containsSub (chars ("email@example.com"))
          ((chars ("TO: ") ++ p.name ++ chars (" <")) ++
            (chars ("email@example.com") ++ chars (">"))) = true :=
        containsSub_append_left _ (containsSub_self_append _ _)
      have hto2 : containsSub (chars ("email@example.com"))
          (chars ("TO: ") ++ p.name ++ chars (" <") ++
            pyOr none (chars ("email@example.com")) ++ chars (">")) = true := by
        simpa [List.append_assoc, pyOr] using hto
      exact containsSub_append_left _ (containsSub_cons '\n'
        (containsSub_append_right _ hto2))
  · intro hs
    simp [formatEmail, hs]
  · intro s hs hb
    simp [formatEmail, hs, hb]

def emailC10 : EmailDict :=
  { subject := some (chars ("Hi")), body := some (chars ("Body")) }

/-- Whether format_email returned a rendered string. -/
def exceptIsOk : Except PyErr Str → Bool
  | .ok _ => true
  | .error _ => false

/-- C10 witness: the theorem applied at a concrete email dict with
subject and body present, and at one without a subject. -/
theorem c10_witness :
    exceptIsOk (formatEmail emailC10 prospectPlain) = true ∧
    formatEmail ({ subject := none } : EmailDict) prospectPlain =
      .error (.keyError (chars ("subject"))) := by
  constructor
  · obtain ⟨out, hout, -, -, -, -, -⟩ :=
      (c10_format_email emailC10 prospectPlain).1 (chars ("Hi")) (chars ("Body")) rfl rfl
    rw [hout]
    rfl
  · exact (c10_format_email ({ subject := none } : EmailDict) prospectPlain).2.1 rfl

/-! ## Lemmas on the Python string operations, towards claim C1 -/

theorem pySplitGo_ne_nil (sep : Str) (n : Nat) (s : Str) : pySplitGo sep n s ≠ [] := by
  cases n with
  | zero => simp [pySplitGo]
  | succ n' =>
    simp only [pySplitGo]
    split
    · simp
    · split
      · simp
      · split <;> simp

theorem cond_false_nil (sep : Str) : (sep.isPrefixOf ([] : Str) && !sep.isEmpty) = false := by
  cases sep <;> rfl

theorem pySplitGo_nil (sep : Str) (n : Nat) : pySplitGo sep n ([] : Str) = [[]] := by
  cases n with
  | zero => rfl
  | succ n' =>
    simp only [pySplitGo]
    rw [if_neg (by simp [cond_false_nil])]

theorem pySplitGo_fuel (sep : Str) : ∀ (n m : Nat) (s : Str), s.length ≤ n → s.length ≤ m →
    pySplitGo sep n s = pySplitGo sep m s := by
  intro n
  induction n with
  | zero =>
    intro m s hn hm
    have hs : s = [] := List.eq_nil_of_length_eq_zero (Nat.le_zero.1 hn)
    subst hs
    rw [pySplitGo_nil, pySplitGo_nil]
  | succ n' ih =>
    intro m s hn hm
    cases s with
    | nil => rw [pySplitGo_nil, pySplitGo_nil]
    | cons c rest =>
      cases m with
      | zero => simp at hm
      | succ m' =>
        simp only [pySplitGo]
        by_cases hc : (sep.isPrefixOf (c :: rest) && !sep.isEmpty) = true
        · rw [if_pos hc, if_pos hc]
          have hsep : sep ≠ [] := by
            rw [Bool.and_eq_true] at hc
            simpa [List.isEmpty_iff] using hc.2
          have hsl : 1 ≤ sep.length := List.length_pos.2 hsep
          have hlen : ((c :: rest).drop sep.length).length ≤ n' := by
            simp only [List.length_drop, List.length_cons]
            simp only [List.length_cons] at hn
            omega
          have hlen2 : ((c :: rest).drop sep.length).length ≤ m' := by
            simp only [List.length_drop, List.length_cons]
            simp only [List.length_cons] at hm
            omega
          rw [ih _ _ hlen hlen2]
        · rw [if_neg hc, if_neg hc]
          have hlen : rest.length ≤ n' := by
            simp only [List.length_cons] at hn
            omega
          have hlen2 : rest.length ≤ m' := by
            simp only [List.length_cons] at hm
            omega
          simp only [ih m' rest hlen hlen2]

/-- The head of the split under construction: prepend the scanned
characters to the first part. -/
def consHead (a : Str) : List Str → List Str
  | [] => [a]
  | p :: ps => (a ++ p) :: ps

theorem pySplitGo_no_tick (a : Str) : ∀ (s : Str) (n : Nat), (∀ c ∈ a, c ≠ tick) →
    (a ++ s).length ≤ n →
    pySplitGo tick3 n (a ++ s) = consHead a (pySplitGo tick3 s.length s) := by
  induction a with
  | nil =>
    intro s n _ hn
    rw [List.nil_append, pySplitGo_fuel tick3 n s.length s (by simpa using hn) le_rfl]
    cases hX : pySplitGo tick3 s.length s with
    | nil => exact absurd hX (pySplitGo_ne_nil tick3 s.length s)
    | cons p ps => simp [consHead]
  | cons c a ih =>
    intro s n hno hn
    cases n with
    | zero => simp at hn
    | succ n' =>
      simp only [List.cons_append, pySplitGo]
      have hc : c ≠ tick := hno c (by simp)
      have hbeq : (tick == c) = false := beq_eq_false_iff_ne.2 (Ne.symm hc)
      have hcond : (tick3.isPrefixOf (c :: (a ++ s)) && !tick3.isEmpty) = false := by
        simp [tick3, List.isPrefixOf, hbeq]
      rw [if_neg (by simp [hcond])]
      have hrec := ih s n' (fun x hx => hno x (by simp [hx]))
        (by simp only [List.length_append, List.length_cons] at hn ⊢; omega)
      simp only [hrec]
      cases hX : pySplitGo tick3 s.length s with
      | nil => exact absurd hX (pySplitGo_ne_nil tick3 s.length s)
      | cons p ps => simp [consHead]

theorem pySplitGo_fire (s : Str) (n : Nat) (hn : (tick3 ++ s).length ≤ n) :
    pySplitGo tick3 n (tick3 ++ s) = [] :: pySplitGo tick3 s.length s := by
  cases n with
  | zero => simp [tick3] at hn
  | succ n' =>
    simp only [pySplitGo]
    rw [if_pos (by simp [Bool.and_eq_true, isPrefixOf_self_append, tick3])]
    rw [List.drop_left]
    rw [pySplitGo_fuel tick3 n' s.length s
      (by simp only [List.length_append] at hn; simp [tick3] at hn; omega) le_rfl]

theorem containsSub_isPrefixOf_false {p s : Str} (h : containsSub p s = false) :
    p.isPrefixOf s = false := by
  cases s with
  | nil =>
    cases p with
    | nil => simp [containsSub] at h
    | cons a as => rfl
  | cons c rest =>
    rw [containsSub, Bool.or_eq_false_iff] at h
    exact h.1

theorem pyReplaceGo_id (pat rep : Str) : ∀ (n : Nat) (s : Str), containsSub pat s = false →
    pyReplaceGo pat rep n s = s := by
  intro n
  induction n with
  | zero => intro s h; rfl
  | succ n' ih =>
    intro s h
    have hip : pat.isPrefixOf s = false := containsSub_isPrefixOf_false h
    simp only [pyReplaceGo]
    rw [if_neg (by simp [hip])]
    cases s with
    | nil => rfl
    | cons c rest =>
      rw [containsSub, Bool.or_eq_false_iff] at h
      simp only [ih rest h.2]

theorem pyReplaceGo_fire (pat rep : Str) (hp : pat ≠ []) (n : Nat) (t : Str) :
    pyReplaceGo pat rep (n + 1) (pat ++ t) = rep ++ pyReplaceGo pat rep n t := by
  simp only [pyReplaceGo]
  rw [if_pos (by simp [Bool.and_eq_true, isPrefixOf_self_append, List.isEmpty_iff, hp])]
  rw [List.drop_left]

theorem containsSub_cons_of_head_ne {p : Str} {d : Char} {p' : Str} (hp : p = d :: p')
    {c : Char} (hc : d ≠ c) (w : Str) : containsSub p (c :: w) = containsSub p w := by
  subst hp
  rw [containsSub]
  have hbeq : (d == c) = false := beq_eq_false_iff_ne.2 hc
  simp [List.isPrefixOf, hbeq]

theorem isPrefixOf_snoc_strip {c : Char} : ∀ (p l : Str), c ∉ p →
    p.isPrefixOf (l ++ [c]) = true → p.isPrefixOf l = true := by
  intro p
  induction p with
  | nil => intro l _ _; cases l <;> rfl
  | cons a as ih =>
    intro l hc h
    cases l with
    | nil =>
      simp only [List.nil_append, List.isPrefixOf, Bool.and_eq_true, beq_iff_eq] at h
      obtain ⟨h1, -⟩ := h
      subst h1
      exact absurd (List.mem_cons_self a as) hc
    | cons b bs =>
      simp only [List.cons_append, List.isPrefixOf, Bool.and_eq_true, beq_iff_eq] at h ⊢
      exact ⟨h.1, ih bs (fun hm => hc (List.mem_cons_of_mem a hm)) h.2⟩

theorem containsSub_snoc {p : Str} {c : Char} (hp : p ≠ []) (hc : c ∉ p) :
    ∀ (w : Str), containsSub p (w ++ [c]) = containsSub p w := by
  intro w
  induction w with
  | nil =>
    have hip : p.isPrefixOf [c] = false := by
      cases p with
      | nil => exact absurd rfl hp
      | cons a as =>
        cases as with
        | nil =>
          have : (a == c) = false :=
            beq_eq_false_iff_ne.2 (fun h => hc (by simp [h]))
          simp [List.isPrefixOf, this]
        | cons b bs => simp [List.isPrefixOf]
    simp [containsSub, hip]
  | cons x w ih =>
    simp only [List.cons_append, containsSub, List.append_eq]
    rw [ih]
    have hpre : p.isPrefixOf (x :: (w ++ [c])) = p.isPrefixOf (x :: w) := by
      by_cases hL : p.isPrefixOf (x :: (w ++ [c])) = true
      · rw [hL, (isPrefixOf_snoc_strip p (x :: w) hc hL).symm]
      · rw [Bool.not_eq_true] at hL
        by_cases hR : p.isPrefixOf (x :: w) = true
        · exact absurd (isPrefixOf_append_of_isPrefixOf [c] hR) (by simp [hL])
        · rw [Bool.not_eq_true] at hR
          rw [hL, hR]
    rw [hpre]

theorem containsSub_tick3_eq_false {s : Str} (h : ∀ c ∈ s, c ≠ tick) :
    containsSub tick3 s = false := by
  induction s with
  | nil => rfl
  | cons c rest ih =>
    rw [containsSub]
    have hc : c ≠ tick := h c (by simp)
    have hbeq : (tick == c) = false := beq_eq_false_iff_ne.2 (Ne.symm hc)
    have h1 : tick3.isPrefixOf (c :: rest) = false := by
      simp [tick3, List.isPrefixOf, hbeq]
    rw [h1, ih (fun x hx => h x (by simp [hx]))]
    rfl

theorem pyStrip_wrap {o : Str} (hfirst : o.head? = some '\x7b')
    (hlast : o.getLast? = some '\x7d') :
    pyStrip ('\n' :: (o ++ ['\n'])) = o := by
  obtain ⟨o1, rfl⟩ : ∃ o1, o = '\x7b' :: o1 := by
    cases o with
    | nil => simp at hfirst
    | cons a o1 =>
      simp only [List.head?_cons, Option.some.injEq] at hfirst
      exact ⟨o1, by rw [hfirst]⟩
  unfold pyStrip
  have e1 : ('\n' :: (('\x7b' :: o1) ++ ['\n'])).dropWhile isPyWs =
      ('\x7b' :: o1) ++ ['\n'] := by
    rw [List.dropWhile_cons_of_pos (by decide)]
    rw [List.cons_append, List.dropWhile_cons_of_neg (by decide)]
  rw [e1]
  have e2 : (('\x7b' :: o1) ++ ['\n']).reverse = '\n' :: ('\x7b' :: o1).reverse := by
    simp
  rw [e2]
  rw [List.dropWhile_cons_of_pos (by decide)]
  obtain ⟨rr, hr⟩ : ∃ rr, ('\x7b' :: o1).reverse = '\x7d' :: rr := by
    have hh : ('\x7b' :: o1).reverse.head? = some '\x7d' := by
      rw [List.head?_reverse]
      exact hlast
    cases hrev : ('\x7b' :: o1).reverse with
    | nil => rw [hrev] at hh; simp at hh
    | cons x rr =>
      rw [hrev] at hh
      simp only [List.head?_cons, Option.some.injEq] at hh
      exact ⟨rr, by rw [hh]⟩
  rw [hr, List.dropWhile_cons_of_neg (by decide), ← hr, List.reverse_reverse]

/-! ## Theorems for claim C1 -/

/-- The value of the first member of a parsed object, when it is a
string (a decidable projection used to compare parse results). -/
def firstVal : Option Json → Str
  | some (.obj ((_, .str v) :: _)) => v
  | _ => []

def contentCE : Str := chars ("```json\n\x7b\"a\": \"x json y\"\x7d\n```")

def objectCE : Str := chars ("\x7b\"a\": \"x json y\"\x7d")

/-- C1 counterexample: a fenced response whose JSON object value
contains the substring json is corrupted by the replace step: the
parsed value drops the four characters, so the returned dict is not
the one obtained by parsing the JSON object. -/
theorem c1_counterexample :
    postprocessAnthropic contentCE ≠ jsonLoads objectCE ∧
    firstVal (postprocessAnthropic contentCE) = chars ("x  y") ∧
    firstVal (jsonLoads objectCE) = chars ("x json y") := by
  refine ⟨?_, by decide, by decide⟩
  intro h
  have h2 := congrArg firstVal h
  revert h2
  decide

/-- C1 (amended): for a response consisting of a single JSON object
whose text contains no backtick, the unfenced form parses to exactly
the dictionary of that object; when additionally the object text
contains no occurrence of the substring json, the same holds for the
code-fenced forms with and without the json language tag (occurrences
of json inside a fenced object are deleted, not preserved). -/
theorem c1_parse_amended (obj : Str) (j : Json)
    (hp : jsonLoads obj = some j)
    (hnb : tick ∉ obj)
    (hfirst : obj.head? = some '\x7b')
    (hlast : obj.getLast? = some '\x7d') :
    postprocessAnthropic obj = some j ∧
    (containsSub jsonPat obj = false →
      postprocessAnthropic (chars ("```json\n") ++ obj ++ chars ("\n```")) = some j ∧
      postprocessAnthropic (chars ("```\n") ++ obj ++ chars ("\n```")) = some j) := by
  have hnb' : ∀ c ∈ obj, c ≠ tick := fun c hmem he => hnb (he ▸ hmem)
  constructor
  · have hcs : containsSub tick3 obj = false := containsSub_tick3_eq_false hnb'
    simp [postprocessAnthropic, hcs, hp]
  · intro hnj
    have hnjt : containsSub jsonPat ('\n' :: (obj ++ ['\n'])) = false := by
      rw [containsSub_cons_of_head_ne
        (by decide : jsonPat = 'j' :: (['s', 'o', 'n'] : Str))
        (by decide : ('j' : Char) ≠ '\n') (obj ++ ['\n'])]
      rw [containsSub_snoc (by decide : jsonPat ≠ [])
        (by decide : ('\n' : Char) ∉ jsonPat) obj]
      exact hnj
    have hmid2nt : ∀ c ∈ ('\n' :: (obj ++ ['\n'])), c ≠ tick := by
      intro c hcm
      rcases List.mem_cons.1 hcm with rfl | hcm2
      · decide
      · rcases List.mem_append.1 hcm2 with h3 | h3
        · exact hnb' c h3
        · rcases List.mem_singleton.1 h3 with rfl
          decide
    constructor
    · have hc1 : chars ("```json\n") ++ obj ++ chars ("\n```") =
          tick3 ++ ((jsonPat ++ ('\n' :: (obj ++ ['\n']))) ++ tick3) := by
        rw [show chars ("```json\n") = tick3 ++ (jsonPat ++ ['\n']) from by decide,
          show chars ("\n```") = '\n' :: tick3 from by decide]
        simp [List.append_assoc]
      rw [hc1]
      have hct : containsSub tick3
          (tick3 ++ ((jsonPat ++ ('\n' :: (obj ++ ['\n']))) ++ tick3)) = true :=
        containsSub_self_append tick3 _
      have hmid1nt : ∀ c ∈ (jsonPat ++ ('\n' :: (obj ++ ['\n']))), c ≠ tick := by
        intro c hcm
        rcases List.mem_append.1 hcm with h3 | h3
        · rw [show jsonPat = (['j', 's', 'o', 'n'] : Str) from by decide] at h3
          simp only [List.mem_cons, List.not_mem_nil, or_false] at h3
          rcases h3 with rfl | rfl | rfl | rfl <;> decide
        · exact hmid2nt c h3
      have hsplit : pySplit tick3
          (tick3 ++ ((jsonPat ++ ('\n' :: (obj ++ ['\n']))) ++ tick3)) =
          [[], jsonPat ++ ('\n' :: (obj ++ ['\n'])), []] := by
        unfold pySplit
        rw [pySplitGo_fire _ _ le_rfl]
        rw [pySplitGo_no_tick (jsonPat ++ ('\n' :: (obj ++ ['\n']))) tick3 _ hmid1nt le_rfl]
        rw [show pySplitGo tick3 tick3.length tick3 = [[], []] from by decide]
        simp [consHead]
      have hrep : pyReplace jsonPat [] (jsonPat ++ ('\n' :: (obj ++ ['\n']))) =
          '\n' :: (obj ++ ['\n']) := by
        unfold pyReplace
        have hlen : (jsonPat ++ ('\n' :: (obj ++ ['\n']))).length =
            (3 + ('\n' :: (obj ++ ['\n'])).length) + 1 := by
          have h4 : jsonPat.length = 4 := by decide
          simp only [List.length_append, h4]
          omega
        rw [hlen]
        rw [pyReplaceGo_fire jsonPat [] (by decide) _ _]
        rw [pyReplaceGo_id jsonPat [] _ _ hnjt]
        rfl
      simp only [postprocessAnthropic]
      rw [if_pos hct, hsplit]
      rw [show ([[], jsonPat ++ ('\n' :: (obj ++ ['\n'])), []] : List Str).getD 1 [] =
        jsonPat ++ ('\n' :: (obj ++ ['\n'])) from rfl]
      rw [hrep, pyStrip_wrap hfirst hlast]
      exact hp
    · have hc2 : chars ("```\n") ++ obj ++ chars ("\n```") =
          tick3 ++ (('\n' :: (obj ++ ['\n'])) ++ tick3) := by
        rw [show chars ("```\n") = tick3 ++ ['\n'] from by decide,
          show chars ("\n```") = '\n' :: tick3 from by decide]
        simp [List.append_assoc]
      rw [hc2]
      have hct : containsSub tick3
          (tick3 ++ (('\n' :: (obj ++ ['\n'])) ++ tick3)) = true :=
        containsSub_self_append tick3 _
      have hsplit : pySplit tick3 (tick3 ++ (('\n' :: (obj ++ ['\n'])) ++ tick3)) =
          [[], '\n' :: (obj ++ ['\n']), []] := by
        unfold pySplit
        rw [pySplitGo_fire _ _ le_rfl]
        rw [pySplitGo_no_tick ('\n' :: (obj ++ ['\n'])) tick3 _ hmid2nt le_rfl]
        rw [show pySplitGo tick3 tick3.length tick3 = [[], []] from by decide]
        simp [consHead]
      have hrep : pyReplace jsonPat [] ('\n' :: (obj ++ ['\n'])) =
          '\n' :: (obj ++ ['\n']) := by
        unfold pyReplace
        exact pyReplaceGo_id jsonPat [] _ _ hnjt
      simp only [postprocessAnthropic]
      rw [if_pos hct, hsplit]
      rw [show ([[], '\n' :: (obj ++ ['\n']), []] : List Str).getD 1 [] =
        '\n' :: (obj ++ ['\n']) from rfl]
      rw [hrep, pyStrip_wrap hfirst hlast]
      exact hp

def objW : Str := chars ("\x7b\"a\": \"b\"\x7d")

def jW : Json := Json.obj [(chars ("a"), Json.str (chars ("b")))]

/-- C1 witness: the amended theorem applied to a concrete object in
all three response forms. -/
theorem c1_witness :
    postprocessAnthropic objW = some jW ∧
    postprocessAnthropic (chars ("```json\n") ++ objW ++ chars ("\n```")) = some jW ∧
    postprocessAnthropic (chars ("```\n") ++ objW ++ chars ("\n```")) = some jW := by
  have h := c1_parse_amended objW jW rfl (by decide) (by decide) (by decide)
  exact ⟨h.1, (h.2 (by decide)).1, (h.2 (by decide)).2⟩
